import Mathlib

/-!
Verification development for the hyperliquid-cpp signing core.

The definitions below are a shallow embedding of the C++ sources:

* `src/utils/conversions.cpp` — hex encoding and decoding;
* `src/utils/crypto/keccak.cpp` — Keccak-256 (the OpenSSL "KECCAK-256"
  primitive, i.e. the original Keccak padding with the 0x01 domain suffix);
* `src/utils/signing.cpp` — msgpack canonical serialization (`packJson`),
  `actionHash`, `constructPhantomAgent`, `l1Payload`, `signL1Action`;
* `src/utils/crypto/eip712.cpp` — `encodeType`, `hashType`, `encodeField`,
  `hashStruct`, `encodeTypedData`;
* `src/utils/crypto/ecdsa.cpp` — RFC 6979 deterministic nonce generation
  (`generateDeterministicK`), recovery-id search (`calculateRecoveryId`),
  and `signHash` over secp256k1.

Machine integers are modelled as `Nat`/`Int` with explicit reductions
modulo 2^w where the C++ relies on fixed-width wrap-around.  Exceptions
(`std::invalid_argument`, `std::runtime_error`, nlohmann `type_error`)
are modelled with `Except CppErr`.  The two C++ loops whose bounds are
not syntactic (the RFC 6979 candidate loop, byte-chunking of a message)
are given explicit fuel; every theorem about them quantifies over the
fuel or uses a fuel large enough to be irrelevant.

JSON values are modelled by `Jval`.  The C++ uses `nlohmann::json`, whose
object storage is `std::map<std::string, json>`: keys are kept sorted by
`std::less<std::string>` (byte-wise), and inserting an existing key keeps
the first value.  `mkObj` models building an object from an initializer
list of key/value pairs, exactly as the C++ call sites do.
-/

deriving instance DecidableEq for Except

namespace Hyperliquid

/-- A byte string, each element intended to lie in `[0, 255]`. -/
abbrev Bytes := List Nat

/-- UTF-8 bytes of one character (RFC 3629). -/
def utf8EncodeCharBytes (c : Char) : List Nat :=
  let n := c.toNat
  if n < 0x80 then [n]
  else if n < 0x800 then [0xc0 ||| n / 64, 0x80 ||| n % 64]
  else if n < 0x10000 then [0xe0 ||| n / 4096, 0x80 ||| n / 64 % 64, 0x80 ||| n % 64]
  else [0xf0 ||| n / 262144, 0x80 ||| n / 4096 % 64, 0x80 ||| n / 64 % 64, 0x80 ||| n % 64]

/-- UTF-8 bytes of a string — the byte array a `std::string` holds. -/
def utf8Bytes (s : String) : List Nat := (s.data.map utf8EncodeCharBytes).flatten

/-- Byte-wise lexicographic order on byte strings. -/
def bytesLexLt : List Nat → List Nat → Bool
  | [], [] => false
  | [], _ :: _ => true
  | _ :: _, [] => false
  | a :: as, b :: bs => if a < b then true else if b < a then false else bytesLexLt as bs

/-- Embedding of `std::less<std::string>`: byte-wise lexicographic
comparison of the UTF-8 byte arrays.  This is the order `std::map`
keeps `nlohmann::json` object keys in. -/
def strLess (a b : String) : Bool := bytesLexLt (utf8Bytes a) (utf8Bytes b)

/-- Errors thrown by the C++ core: `std::invalid_argument`,
`std::runtime_error`, and nlohmann's `type_error` from mistyped
`get<T>()` calls. -/
inductive CppErr where
  | invalidArgument (msg : String)
  | runtimeError (msg : String)
  | typeError (msg : String)
deriving DecidableEq, Repr

/-- Big-endian bytes of `n`, exactly `w` of them (the value is taken
modulo `2 ^ (8 * w)`, matching the C++ shift-and-mask loops). -/
def be (w n : Nat) : Bytes :=
  (List.range w).map (fun i => n / 256 ^ (w - 1 - i) % 256)

/-- Little-endian bytes of `n`, exactly `w` of them. -/
def leBytes (w n : Nat) : Bytes :=
  (List.range w).map (fun i => n / 256 ^ i % 256)

/-- A big-endian byte string as a natural number (`BN_bin2bn`). -/
def bytesToNatBE (bs : Bytes) : Nat := bs.foldl (fun a b => a * 256 + b) 0

/-- A little-endian byte string as a natural number. -/
def bytesToNatLE (bs : Bytes) : Nat := bs.foldr (fun b a => a * 256 + b) 0

/-- Two's-complement value of the `int64_t`-style integer `v` in `w` bits,
as a natural number (the bytes the C++ shift-and-mask loops emit). -/
def toTc (w : Nat) (v : Int) : Nat := (v % ((2 : Int) ^ w)).toNat

/-- Value of one hex digit; `none` when the character is not a hex digit
(`std::stoul` accepts both cases). -/
def hexDigitVal (c : Char) : Option Nat :=
  if '0' ≤ c ∧ c ≤ '9' then some (c.toNat - '0'.toNat)
  else if 'a' ≤ c ∧ c ≤ 'f' then some (c.toNat - 'a'.toNat + 10)
  else if 'A' ≤ c ∧ c ≤ 'F' then some (c.toNat - 'A'.toNat + 10)
  else none

/-- One byte parsed from two characters the way
`std::stoul(byte_str, nullptr, 16)` does on a 2-character string: it
converts the longest valid prefix and throws `std::invalid_argument`
only when no digit at all can be converted. -/
def stoulByte (c1 c2 : Char) : Except CppErr Nat :=
  match hexDigitVal c1, hexDigitVal c2 with
  | none, _ => .error (.invalidArgument "stoul")
  | some d1, none => .ok d1
  | some d1, some d2 => .ok (16 * d1 + d2)

/-- Characters of a hex string with an optional leading `"0x"` removed
(`hexToBytes` strips exactly the two characters `0x`). -/
def stripHexPfx (s : String) : List Char :=
  match s.data with
  | '0' :: 'x' :: rest => rest
  | cs => cs

/-- Consecutive character pairs decoded to bytes. -/
def hexPairsToBytes : List Char → Except CppErr Bytes
  | [] => .ok []
  | [_] => .error (.invalidArgument "Hex string must have even length")
  | c1 :: c2 :: rest => do
      let b ← stoulByte c1 c2
      let bs ← hexPairsToBytes rest
      pure (b :: bs)

/-- Embedding of `hexToBytes` (conversions.cpp): strip `"0x"`, reject odd
length with `std::invalid_argument`, decode byte pairs. -/
def hexToBytes (hex : String) : Except CppErr Bytes :=
  let cs := stripHexPfx hex
  if cs.length % 2 ≠ 0 then .error (.invalidArgument "Hex string must have even length")
  else hexPairsToBytes cs

/-- Lowercase hex character of a value below 16. -/
def hexCharOf (n : Nat) : Char :=
  if n < 10 then Char.ofNat (48 + n) else Char.ofNat (87 + n)

/-- Two lowercase hex characters of one byte (`%02x`). -/
def byteToHexChars (b : Nat) : List Char := [hexCharOf (b / 16 % 16), hexCharOf (b % 16)]

/-- Embedding of `bytesToHex` (conversions.cpp): lowercase hex, optional
`"0x"`. -/
def bytesToHex (bs : Bytes) (withPfx : Bool) : String :=
  (if withPfx then "0x" else "") ++ String.mk ((bs.map byteToHexChars).flatten)

/-! ### SHA-256 and HMAC-SHA-256

The C++ calls OpenSSL's `EVP_sha256` through `HMAC`; this is the FIPS
180-4 SHA-256 function, embedded here in full so that
`generateDeterministicK` is executable. -/

/-- Right rotation of a 32-bit word. -/
def rotr32 (x n : Nat) : Nat := ((x >>> n) ||| (x <<< (32 - n))) % 2 ^ 32

/-- Bitwise complement within 32 bits. -/
def not32 (x : Nat) : Nat := x ^^^ (2 ^ 32 - 1)

/-- The SHA-256 round constants (FIPS 180-4, in decimal). -/
def sha256K : List Nat :=
  [1116352408, 1899447441, 3049323471, 3921009573, 961987163, 1508970993, 2453635748, 2870763221,
   3624381080, 310598401, 607225278, 1426881987, 1925078388, 2162078206, 2614888103, 3248222580,
   3835390401, 4022224774, 264347078, 604807628, 770255983, 1249150122, 1555081692, 1996064986,
   2554220882, 2821834349, 2952996808, 3210313671, 3336571891, 3584528711, 113926993, 338241895,
   666307205, 773529912, 1294757372, 1396182291, 1695183700, 1986661051, 2177026350, 2456956037,
   2730485921, 2820302411, 3259730800, 3345764771, 3516065817, 3600352804, 4094571909, 275423344,
   430227734, 506948616, 659060556, 883997877, 958139571, 1322822218, 1537002063, 1747873779,
   1955562222, 2024104815, 2227730452, 2361852424, 2428436474, 2756734187, 3204031479, 3329325298]

/-- The SHA-256 initial hash state (FIPS 180-4, in decimal). -/
def sha256H0 : List Nat :=
  [1779033703, 3144134277, 1013904242, 2773480762, 1359893119, 2600822924, 528734635, 1541459225]

/-- Bytes grouped into big-endian 32-bit words. -/
def bytesToWordsBE : Bytes → List Nat
  | b0 :: b1 :: b2 :: b3 :: rest => (((b0 * 256 + b1) * 256 + b2) * 256 + b3) :: bytesToWordsBE rest
  | _ => []

/-- The 64-word SHA-256 message schedule extended from the 16 block words. -/
def sha256Schedule (w16 : List Nat) : List Nat :=
  (List.range 48).foldl
    (fun acc _ =>
      let i := acc.length
      let x15 := acc.getD (i - 15) 0
      let x2 := acc.getD (i - 2) 0
      let s0 := rotr32 x15 7 ^^^ rotr32 x15 18 ^^^ (x15 >>> 3)
      let s1 := rotr32 x2 17 ^^^ rotr32 x2 19 ^^^ (x2 >>> 10)
      acc ++ [(acc.getD (i - 16) 0 + s0 + acc.getD (i - 7) 0 + s1) % 2 ^ 32])
    w16

/-- One SHA-256 round on the 8-word working state; `kw` is the round
constant already added to the schedule word. -/
def sha256Round (st : List Nat) (kw : Nat) : List Nat :=
  match st with
  | [a, b, c, d, e, f, g, h] =>
      let s1 := rotr32 e 6 ^^^ rotr32 e 11 ^^^ rotr32 e 25
      let ch := (e &&& f) ^^^ (not32 e &&& g)
      let t1 := (h + s1 + ch + kw) % 2 ^ 32
      let s0 := rotr32 a 2 ^^^ rotr32 a 13 ^^^ rotr32 a 22
      let maj := (a &&& b) ^^^ (a &&& c) ^^^ (b &&& c)
      let t2 := (s0 + maj) % 2 ^ 32
      [(t1 + t2) % 2 ^ 32, a, b, c, (d + t1) % 2 ^ 32, e, f, g]
  | other => other

/-- Compression of one 64-byte block into the running 8-word state. -/
def sha256Compress (hs : List Nat) (block : Bytes) : List Nat :=
  let w := sha256Schedule (bytesToWordsBE block)
  let st := (List.range 64).foldl
    (fun st i => sha256Round st ((sha256K.getD i 0 + w.getD i 0) % 2 ^ 32)) hs
  List.zipWith (fun x y => (x + y) % 2 ^ 32) hs st

/-- FIPS 180-4 padding: `0x80`, zeros to 56 mod 64, bit length as 8
big-endian bytes. -/
def sha256Pad (msg : Bytes) : Bytes :=
  let l := msg.length
  let k := (55 + 64 - l % 64) % 64
  msg ++ [0x80] ++ List.replicate k 0 ++ be 8 (l * 8 % 2 ^ 64)

/-- A byte string cut into chunks of `sz` bytes; `fuel` bounds the number
of chunks (callers pass more than enough). -/
def chunks (sz : Nat) : Nat → Bytes → List Bytes
  | 0, _ => []
  | _, [] => []
  | fuel + 1, bs => bs.take sz :: chunks sz fuel (bs.drop sz)

/-- SHA-256 of a byte string, as 32 bytes. -/
def sha256 (msg : Bytes) : Bytes :=
  let blocks := chunks 64 (msg.length / 64 + 2) (sha256Pad msg)
  ((blocks.foldl sha256Compress sha256H0).map (be 4)).flatten

/-- HMAC-SHA-256 (RFC 2104), the `HMAC(EVP_sha256(), ...)` calls of
`generateDeterministicK`. -/
def hmacSha256 (key msg : Bytes) : Bytes :=
  let k0 := if key.length > 64 then sha256 key else key
  let kp := k0 ++ List.replicate (64 - k0.length) 0
  sha256 ((kp.map (fun b => b ^^^ 0x5c)) ++ sha256 ((kp.map (fun b => b ^^^ 0x36)) ++ msg))

/-! ### Keccak-256

keccak.cpp fetches OpenSSL's "KECCAK-256": the original Keccak sponge
with rate 1088, capacity 512, and the pre-SHA-3 0x01 padding domain
(not the standardized 0x06 of SHA3-256). -/

/-- Left rotation of a 64-bit lane. -/
def rotl64 (x n : Nat) : Nat := ((x <<< n) ||| (x >>> (64 - n))) % 2 ^ 64

/-- The 24 Keccak-f round constants (in decimal). -/
def keccakRC : List Nat :=
  [1, 32898, 9223372036854808714, 9223372039002292224,
   32907, 2147483649, 9223372039002292353, 9223372036854808585,
   138, 136, 2147516425, 2147483658,
   2147516555, 9223372036854775947, 9223372036854808713, 9223372036854808579,
   9223372036854808578, 9223372036854775936, 32778, 9223372039002259466,
   9223372039002292353, 9223372036854808704, 2147483649, 9223372039002292232]

/-- The combined rho and pi dispatch table: entry `t` is the pair
`(src, rot)` such that target lane `t = y + 5 * ((2 * x + 3 * y) % 5)`
receives the source lane `src = x + 5 * y` rotated left by the rho
offset `rot` of that source lane. -/
def keccakPiRot : List (Nat × Nat) :=
  [(0, 0), (6, 44), (12, 43), (18, 21), (24, 14),
   (3, 28), (9, 20), (10, 3), (16, 45), (22, 61),
   (1, 1), (7, 6), (13, 25), (19, 8), (20, 18),
   (4, 27), (5, 36), (11, 10), (17, 15), (23, 56),
   (2, 62), (8, 55), (14, 39), (15, 41), (21, 2)]

/-- Lane read with default 0 (state lists always have 25 entries). -/
def lane (s : List Nat) (i : Nat) : Nat := s.getD i 0

/-- The theta step. -/
def keccakTheta (s : List Nat) : List Nat :=
  let c := (List.range 5).map
    (fun x => lane s x ^^^ lane s (x + 5) ^^^ lane s (x + 10) ^^^ lane s (x + 15) ^^^ lane s (x + 20))
  let d := (List.range 5).map (fun x => lane c ((x + 4) % 5) ^^^ rotl64 (lane c ((x + 1) % 5)) 1)
  (List.range 25).map (fun i => lane s i ^^^ lane d (i % 5))

/-- The combined rho and pi steps. -/
def keccakRhoPi (s : List Nat) : List Nat :=
  (List.range 25).map (fun t =>
    let e := keccakPiRot.getD t (0, 0)
    rotl64 (lane s e.1) e.2)

/-- The chi step. -/
def keccakChi (s : List Nat) : List Nat :=
  (List.range 25).map (fun i =>
    let base := i / 5 * 5
    let x := i % 5
    lane s i ^^^ ((lane s (base + (x + 1) % 5) ^^^ (2 ^ 64 - 1)) &&& lane s (base + (x + 2) % 5)))

/-- One Keccak-f round: theta, rho, pi, chi, iota. -/
def keccakRound (s : List Nat) (rc : Nat) : List Nat :=
  match keccakChi (keccakRhoPi (keccakTheta s)) with
  | a0 :: rest => (a0 ^^^ rc) :: rest
  | [] => []

/-- The Keccak-f[1600] permutation. -/
def keccakF (s : List Nat) : List Nat := keccakRC.foldl keccakRound s

/-- Original Keccak multi-rate padding with domain byte 0x01 (rate 136
bytes): append 0x01, zeros, and set the top bit of the final rate byte. -/
def keccakPad (msg : Bytes) : Bytes :=
  let padLen := 136 - msg.length % 136
  if padLen = 1 then msg ++ [0x81]
  else msg ++ [0x01] ++ List.replicate (padLen - 2) 0 ++ [0x80]

/-- Absorption of one 136-byte block into the 25-lane state. -/
def keccakAbsorb (s : List Nat) (block : Bytes) : List Nat :=
  let bl := (List.range 17).map (fun i => bytesToNatLE ((block.drop (8 * i)).take 8))
  keccakF ((List.range 25).map (fun i => if i < 17 then lane s i ^^^ lane bl i else lane s i))

/-- Embedding of `keccak256` (keccak.cpp, via OpenSSL "KECCAK-256"):
absorb the padded message and squeeze 32 bytes. -/
def keccak256 (msg : Bytes) : Bytes :=
  let blocks := chunks 136 (msg.length / 136 + 2) (keccakPad msg)
  let s := blocks.foldl keccakAbsorb (List.replicate 25 0)
  leBytes 8 (lane s 0) ++ leBytes 8 (lane s 1) ++ leBytes 8 (lane s 2) ++ leBytes 8 (lane s 3)

/-! ### The nlohmann::json value model

The action trees, phantom agents, and EIP-712 payloads are
`nlohmann::json` values.  `Jval` is their embedding.  An object value
carries its entries in *storage* order; because `nlohmann::json` keeps
objects in a `std::map<std::string, basic_json>`, storage order is
always ascending key order, and it is produced from the caller's
initializer list by repeated `emplace` (`JObj.emplace`, first value
wins on duplicates) — see `mkObj`.  A float carries its raw IEEE-754
bit pattern, which is exactly what the msgpack packer emits. -/

mutual
inductive Jval where
  | jnull
  | jbool (b : Bool)
  | jint (v : Int)
  | jfloat (bits : Nat)
  | jstr (s : String)
  | jarr (items : JArr)
  | jobj (entries : JObj)
inductive JArr where
  | nil
  | cons (hd : Jval) (tl : JArr)
inductive JObj where
  | nil
  | cons (key : String) (val : Jval) (tl : JObj)
end

/-- Number of elements of a JSON array. -/
def JArr.length : JArr → Nat
  | .nil => 0
  | .cons _ tl => 1 + tl.length

/-- Number of entries of a JSON object. -/
def JObj.length : JObj → Nat
  | .nil => 0
  | .cons _ _ tl => 1 + tl.length

/-- Value stored under a key, if any (`std::map` keys are equivalent
when neither is `std::less` than the other). -/
def JObj.find : JObj → String → Option Jval
  | .nil, _ => none
  | .cons k v tl, key => if !strLess k key && !strLess key k then some v else tl.find key

/-- Embedding of `std::map::emplace` into the sorted entry list: insert
in ascending key order, keep the existing value when the key is already
present.  This is how `nlohmann::json` builds an object from an
initializer list. -/
def JObj.emplace : JObj → String → Jval → JObj
  | .nil, k, v => .cons k v .nil
  | .cons k0 v0 tl, k, v =>
      if strLess k k0 then .cons k v (.cons k0 v0 tl)
      else if strLess k0 k then .cons k0 v0 (tl.emplace k v)
      else .cons k0 v0 tl

/-- Embedding of `json::operator[] =` (insert or assign, sorted). -/
def JObj.assign : JObj → String → Jval → JObj
  | .nil, k, v => .cons k v .nil
  | .cons k0 v0 tl, k, v =>
      if strLess k k0 then .cons k v (.cons k0 v0 tl)
      else if strLess k0 k then .cons k0 v0 (tl.assign k v)
      else .cons k0 v tl

/-- An object built from an initializer list of key/value pairs, the way
a `nlohmann::json` braced initializer builds one. -/
def mkObj (l : List (String × Jval)) : Jval :=
  .jobj (l.foldl (fun o kv => o.emplace kv.1 kv.2) .nil)

/-- A JSON array from a list of values (order preserved). -/
def JArr.ofList : List Jval → JArr
  | [] => .nil
  | j :: rest => .cons j (JArr.ofList rest)

/-- A `Jval` array from a list of values. -/
def jarrOf (l : List Jval) : Jval := .jarr (JArr.ofList l)

/-- Key lookup on an object value (`contains` + `operator[]`). -/
def Jval.lookup (j : Jval) (k : String) : Option Jval :=
  match j with
  | .jobj o => o.find k
  | _ => none

/-- Value replacement at one key of one object, leaving everything else
of the tree unchanged (used to state "the payloads differ only in this
field"). -/
def JObj.update : JObj → String → (Jval → Jval) → JObj
  | .nil, _, _ => .nil
  | .cons k0 v tl, k, f =>
      if k0 = k then .cons k0 (f v) tl else .cons k0 v (tl.update k f)

/-- Value replacement at one key, on a `Jval`. -/
def Jval.update (j : Jval) (k : String) (f : Jval → Jval) : Jval :=
  match j with
  | .jobj o => .jobj (o.update k f)
  | other => other

/-! ### The msgpack canonical encoder (`packJson`, signing.cpp)

`packJson` dispatches on the stored json type and calls the msgpack-c
packer, which always chooses the minimal-width format.  The encodings
below are the msgpack-c format selections. -/

/-- msgpack str format header (fixstr / str8 / str16 / str32). -/
def strHeader (n : Nat) : Bytes :=
  if n < 32 then [0xa0 + n]
  else if n < 256 then [0xd9, n]
  else if n < 65536 then 0xda :: be 2 n
  else 0xdb :: be 4 n

/-- msgpack packing of a string: header then raw UTF-8 bytes. -/
def packStr (s : String) : Bytes :=
  let bs := utf8Bytes s
  strHeader bs.length ++ bs

/-- msgpack array format header (fixarray / array16 / array32). -/
def arrHeader (n : Nat) : Bytes :=
  if n < 16 then [0x90 + n]
  else if n < 65536 then 0xdc :: be 2 n
  else 0xdd :: be 4 n

/-- msgpack map format header (fixmap / map16 / map32). -/
def mapHeader (n : Nat) : Bytes :=
  if n < 16 then [0x80 + n]
  else if n < 65536 then 0xde :: be 2 n
  else 0xdf :: be 4 n

/-- msgpack packing of an `int64_t` (msgpack-c `pack_imp_int64`):
negative values use the signed formats, non-negative values the
unsigned ones, always minimal width. -/
def packInt64 (v : Int) : Bytes :=
  if v < -(2 ^ 5) then
    if v < -(2 ^ 15) then
      if v < -(2 ^ 31) then 0xd3 :: be 8 (toTc 64 v) else 0xd2 :: be 4 (toTc 32 v)
    else
      if v < -(2 ^ 7) then 0xd1 :: be 2 (toTc 16 v) else [0xd0, toTc 8 v]
  else if v < 2 ^ 7 then [toTc 8 v]
  else if v < 2 ^ 16 then
    (if v < 2 ^ 8 then [0xcc, v.toNat] else 0xcd :: be 2 v.toNat)
  else if v < 2 ^ 32 then 0xce :: be 4 v.toNat
  else 0xcf :: be 8 (toTc 64 v)

mutual
/-- Embedding of `packJson` (signing.cpp): dispatch on the stored json
type.  Note that `is_number_integer()` is checked before
`is_number_unsigned()` and is true for both, so every integer is packed
through the `int64_t` overload.  Object entries are emitted in storage
order — which, for `nlohmann::json`, is ascending key order. -/
def packJson : Jval → Bytes
  | .jnull => [0xc0]
  | .jbool false => [0xc2]
  | .jbool true => [0xc3]
  | .jint v => packInt64 v
  | .jfloat bits => 0xcb :: be 8 bits
  | .jstr s => packStr s
  | .jarr items => arrHeader items.length ++ packArr items
  | .jobj entries => mapHeader entries.length ++ packEntries entries

/-- Array elements packed in order. -/
def packArr : JArr → Bytes
  | .nil => []
  | .cons hd tl => packJson hd ++ packArr tl

/-- Object entries packed in storage order: key (as msgpack string),
then value. -/
def packEntries : JObj → Bytes
  | .nil => []
  | .cons k v tl => packStr k ++ packJson v ++ packEntries tl
end

/-! ### actionHash and the L1 payload (signing.cpp) -/

/-- The expiry framing appended by step 4 of `actionHash`: nothing when
absent, else a 0x00 marker byte and the value as 8 big-endian bytes. -/
def expiryTail (expiresAfter : Option Int) : Bytes :=
  match expiresAfter with
  | none => []
  | some exp => 0x00 :: be 8 (toTc 64 exp)

/-- Embedding of `actionHash` (signing.cpp): msgpack the action, append
the nonce as 8 big-endian bytes, append the vault-address framing (a
0x00 presence byte when absent; 0x01 and the 20 decoded address bytes
when present, throwing `std::runtime_error` when the decoded length is
not 20), append the expiry framing, and Keccak-256 the whole string. -/
def actionHash (action : Jval) (vaultAddress : Option String) (nonce : Int)
    (expiresAfter : Option Int) : Except CppErr Bytes :=
  let base := packJson action ++ be 8 (toTc 64 nonce)
  match vaultAddress with
  | none => .ok (keccak256 (base ++ [0x00] ++ expiryTail expiresAfter))
  | some va =>
      match hexToBytes va with
      | .error e => .error e
      | .ok addrBytes =>
          if addrBytes.length ≠ 20 then .error (.runtimeError "Invalid vault address length")
          else .ok (keccak256 (base ++ [0x01] ++ addrBytes ++ expiryTail expiresAfter))

/-- Embedding of `constructPhantomAgent` (signing.cpp). -/
def constructPhantomAgent (hash : Bytes) (isMainnet : Bool) : Jval :=
  let source := if isMainnet then "a" else "b"
  let connectionId := bytesToHex hash true
  mkObj [("source", .jstr source), ("connectionId", .jstr connectionId)]

/-- Embedding of `l1Payload` (signing.cpp): the fixed EIP-712 payload of
L1 action signing. -/
def l1Payload (phantomAgent : Jval) : Jval :=
  mkObj
    [("domain", mkObj
        [("name", .jstr "Exchange"),
         ("version", .jstr "1"),
         ("chainId", .jint 1337),
         ("verifyingContract", .jstr "0x0000000000000000000000000000000000000000")]),
     ("primaryType", .jstr "Agent"),
     ("types", mkObj
        [("EIP712Domain", jarrOf
            [mkObj [("name", .jstr "name"), ("type", .jstr "string")],
             mkObj [("name", .jstr "version"), ("type", .jstr "string")],
             mkObj [("name", .jstr "chainId"), ("type", .jstr "uint256")],
             mkObj [("name", .jstr "verifyingContract"), ("type", .jstr "address")]]),
         ("Agent", jarrOf
            [mkObj [("name", .jstr "source"), ("type", .jstr "string")],
             mkObj [("name", .jstr "connectionId"), ("type", .jstr "bytes32")]])]),
     ("message", phantomAgent)]

/-! ### The EIP-712 encoder (eip712.cpp) -/

/-- One declared struct field, `EIP712Type` of types.hpp. -/
structure EIP712Type where
  name : String
  type : String
deriving DecidableEq, Repr

/-- The json form of a field descriptor (`EIP712Type::toJson`). -/
def EIP712Type.toJson (t : EIP712Type) : Jval :=
  mkObj [("name", .jstr t.name), ("type", .jstr t.type)]

/-- The `std::map<std::string, std::vector<EIP712Type>>` of
`encodeTypedData`, kept in ascending key order. -/
abbrev TypesMap := List (String × List EIP712Type)

/-- Embedding of `std::map::operator[] =` on the types map. -/
def tmAssign : TypesMap → String → List EIP712Type → TypesMap
  | [], k, v => [(k, v)]
  | (k0, v0) :: tl, k, v =>
      if strLess k k0 then (k, v) :: (k0, v0) :: tl
      else if strLess k0 k then (k0, v0) :: tmAssign tl k v
      else (k0, v) :: tl

/-- Embedding of `std::map::find` on the types map. -/
def tmFind : TypesMap → String → Option (List EIP712Type)
  | [], _ => none
  | (k0, v) :: tl, k => if !strLess k0 k && !strLess k k0 then some v else tmFind tl k

/-- The comma-joined field list of `encodeType`: `type1 name1,type2 name2,...`. -/
def joinFields : List EIP712Type → String
  | [] => ""
  | [f] => f.type ++ " " ++ f.name
  | f :: rest => f.type ++ " " ++ f.name ++ "," ++ joinFields rest

/-- Embedding of `encodeType` (eip712.cpp): the canonical type string
`Primary(type1 field1,type2 field2,...)`, fields in declared order. -/
def encodeType (primaryType : String) (types : TypesMap) : Except CppErr String :=
  match tmFind types primaryType with
  | none => .error (.runtimeError "Primary type not found in types map")
  | some fields => .ok (primaryType ++ "(" ++ joinFields fields ++ ")")

/-- Embedding of `hashType` (eip712.cpp). -/
def hashType (primaryType : String) (types : TypesMap) : Except CppErr Bytes := do
  let encoded ← encodeType primaryType types
  pure (keccak256 (utf8Bytes encoded))

/-- Truncation of an IEEE-754 double (given by its bit pattern) to
`uint64_t`, modelling `static_cast<uint64_t>(double)`.  Negative,
non-finite, and out-of-range values are undefined behaviour in C++;
they are modelled as 0 resp. wrap-around here. -/
def f64TruncToUInt64 (bits : Nat) : Nat :=
  let sign := bits / 2 ^ 63
  let expF := bits / 2 ^ 52 % 2 ^ 11
  let mant := bits % 2 ^ 52
  if sign = 1 ∨ expF = 0 ∨ expF = 2047 then 0
  else
    let m := 2 ^ 52 + mant
    if expF < 1075 then m / 2 ^ (1075 - expF) else m * 2 ^ (expF - 1075) % 2 ^ 64

/-- Embedding of `value.get<uint64_t>()`: numbers convert (signed values
through the usual two's-complement wrap, floats by truncation), every
other json type throws nlohmann's `type_error`. -/
def getUInt64 (v : Jval) : Except CppErr Nat :=
  match v with
  | .jint i => .ok (toTc 64 i)
  | .jfloat bits => .ok (f64TruncToUInt64 bits)
  | _ => .error (.typeError "type must be number")

/-- Embedding of `encodeField` (eip712.cpp): a 32-byte word per field.
String values hash; `bytes32` decodes and must be exactly 32 bytes;
`uint64`/`uint256` encode big-endian right-aligned; `address` decodes
to exactly 20 bytes, left-padded with 12 zero bytes; every other type
name throws. -/
def encodeField (type : String) (value : Jval) : Except CppErr Bytes :=
  if type = "string" then
    match value with
    | .jstr s => .ok (keccak256 (utf8Bytes s))
    | _ => .error (.typeError "type must be string")
  else if type = "bytes32" then
    match value with
    | .jstr hexStr =>
        match hexToBytes hexStr with
        | .error e => .error e
        | .ok bytes =>
            if bytes.length ≠ 32 then .error (.runtimeError "bytes32 field must be 32 bytes")
            else .ok bytes
    | _ => .error (.typeError "type must be string")
  else if type = "uint64" then
    match getUInt64 value with
    | .error e => .error e
    | .ok num => .ok (List.replicate 24 0 ++ be 8 num)
  else if type = "uint256" then
    match getUInt64 value with
    | .error e => .error e
    | .ok num => .ok (List.replicate 24 0 ++ be 8 num)
  else if type = "address" then
    match value with
    | .jstr addr =>
        match hexToBytes addr with
        | .error e => .error e
        | .ok bytes =>
            if bytes.length ≠ 20 then .error (.runtimeError "Address must be 20 bytes")
            else .ok (List.replicate 12 0 ++ bytes)
    | _ => .error (.typeError "type must be string")
  else .error (.runtimeError ("Unsupported EIP-712 type: " ++ type))

/-- The concatenated field encodings of `hashStruct`'s loop: each
declared field must be present in the data object. -/
def encodeFields : List EIP712Type → Jval → Except CppErr Bytes
  | [], _ => .ok []
  | f :: rest, data =>
      match data.lookup f.name with
      | none => .error (.runtimeError ("Missing field in struct data: " ++ f.name))
      | some v => do
          let fb ← encodeField f.type v
          let rb ← encodeFields rest data
          pure (fb ++ rb)

/-- Embedding of `hashStruct` (eip712.cpp). -/
def hashStruct (structType : String) (data : Jval) (types : TypesMap) : Except CppErr Bytes := do
  let th ← hashType structType types
  match tmFind types structType with
  | none => .error (.runtimeError "Struct type not found in types map")
  | some fields => do
      let enc ← encodeFields fields data
      pure (keccak256 (th ++ enc))

/-- One field descriptor object read back as an `EIP712Type`
(`field["name"]`, `field["type"]` in `encodeTypedData`). -/
def parseFieldList : JArr → Except CppErr (List EIP712Type)
  | .nil => .ok []
  | .cons f tl =>
      match f.lookup "name", f.lookup "type" with
      | some (.jstr n), some (.jstr t) => do
          let rest ← parseFieldList tl
          pure (⟨n, t⟩ :: rest)
      | _, _ => .error (.typeError "field descriptor must hold string name and type")

/-- The types map built from the payload's `types` object, iterating its
entries in storage order. -/
def buildTypesMap : JObj → TypesMap → Except CppErr TypesMap
  | .nil, acc => .ok acc
  | .cons k v tl, acc =>
      match v with
      | .jarr fields => do
          let fl ← parseFieldList fields
          buildTypesMap tl (tmAssign acc k fl)
      | _ => .error (.typeError "types entries must be arrays")

/-- Embedding of `encodeTypedData` (eip712.cpp): require the four
top-level keys, build the types map, and hash
`0x19 0x01 ‖ hashStruct(EIP712Domain, domain) ‖ hashStruct(primaryType, message)`. -/
def encodeTypedData (typedData : Jval) : Except CppErr Bytes :=
  match typedData.lookup "types", typedData.lookup "domain",
        typedData.lookup "primaryType", typedData.lookup "message" with
  | some typesJ, some domain, some primaryTypeJ, some message =>
      (match typesJ with
       | .jobj o => do
          let typesMap ← buildTypesMap o []
          let domainHash ← hashStruct "EIP712Domain" domain typesMap
          let primaryType ← (match primaryTypeJ with
            | .jstr s => .ok s
            | _ => .error (.typeError "primaryType must be a string"))
          let messageHash ← hashStruct primaryType message typesMap
          pure (keccak256 ([0x19, 0x01] ++ domainHash ++ messageHash))
       | _ => .error (.typeError "types must be an object"))
  | _, _, _, _ => .error (.runtimeError "Invalid EIP-712 typed data structure")

/-! ### secp256k1 and deterministic ECDSA (ecdsa.cpp)

The C++ drives OpenSSL's `EC_*`/`BN_*` primitives over the fixed curve
`NID_secp256k1` (y² = x³ + 7 over F_p).  The embedding implements those
primitives directly: modular exponentiation (and through it Fermat
inverses and the p ≡ 3 (mod 4) square root `BN_mod_sqrt` computes),
the affine group law, and binary scalar multiplication for
`EC_POINT_mul`. -/

/-- The secp256k1 field prime. -/
def secpP : Nat := 2 ^ 256 - 2 ^ 32 - 977

/-- The secp256k1 group order (the `EC_GROUP_get_order` value). -/
def secpN : Nat := 0xFFFFFFFFFFFFFFFFFFFFFFFFFFFFFFFEBAAEDCE6AF48A03BBFD25E8CD0364141

/-- x-coordinate of the generator. -/
def secpGx : Nat := 0x79BE667EF9DCBBAC55A06295CE870B07029BFCDB2DCE28D959F2815B16F81798

/-- y-coordinate of the generator. -/
def secpGy : Nat := 0x483ADA7726A3C4655DA4FBFC0E1108A8FD17B448A68554199C47D08FFB10D4B8

/-- Modular exponentiation by binary decomposition of the exponent;
`fuel` bounds the bit length (callers pass 512, far above the 256-bit
exponents in use). -/
def powMod : Nat → Nat → Nat → Nat → Nat
  | 0, _, _, m => 1 % m
  | fuel + 1, b, e, m =>
      if e = 0 then 1 % m
      else
        let h := powMod fuel b (e / 2) m
        if e % 2 = 0 then h * h % m else h * h % m * b % m

/-- Modular inverse by Fermat's little theorem.  For the prime moduli
used here (`secpP`, `secpN`) and nonzero arguments this is the value
`BN_mod_inverse` returns. -/
def invMod (a m : Nat) : Nat := powMod 512 (a % m) (m - 2) m

/-- Square root modulo `secpP` (≡ 3 mod 4): `a ^ ((p + 1) / 4)`, the
value `BN_mod_sqrt` computes for such primes. -/
def sqrtMod (a : Nat) : Nat := powMod 512 (a % secpP) ((secpP + 1) / 4) secpP

/-- A point of the curve: the point at infinity or affine coordinates. -/
inductive ECPoint where
  | infinity
  | affine (x y : Nat)
deriving DecidableEq, Repr

/-- The generator point. -/
def secpG : ECPoint := .affine secpGx secpGy

/-- Field multiplication modulo `secpP`. -/
def fmul (a b : Nat) : Nat := a * b % secpP

/-- Field subtraction modulo `secpP`. -/
def fsub (a b : Nat) : Nat := (a % secpP + (secpP - b % secpP)) % secpP

/-- Doubling in the affine group law of y² = x³ + 7. -/
def pointDouble : ECPoint → ECPoint
  | .infinity => .infinity
  | .affine x y =>
      if y % secpP = 0 then .infinity
      else
        let l := fmul (fmul 3 (fmul x x)) (invMod (fmul 2 y) secpP)
        let x3 := fsub (fmul l l) (fmul 2 x)
        .affine x3 (fsub (fmul l (fsub x x3)) y)

/-- Addition in the affine group law (`EC_POINT_add`). -/
def pointAdd : ECPoint → ECPoint → ECPoint
  | .infinity, q => q
  | p, .infinity => p
  | .affine x1 y1, .affine x2 y2 =>
      if x1 % secpP = x2 % secpP then
        if (y1 + y2) % secpP = 0 then .infinity else pointDouble (.affine x1 y1)
      else
        let l := fmul (fsub y2 y1) (invMod (fsub x2 x1) secpP)
        let x3 := fsub (fsub (fmul l l) x1) x2
        .affine x3 (fsub (fmul l (fsub x1 x3)) y1)

/-- Negation (`EC_POINT_invert`): y becomes p − y. -/
def pointNeg : ECPoint → ECPoint
  | .infinity => .infinity
  | .affine x y => .affine x ((secpP - y % secpP) % secpP)

/-- Binary double-and-add scalar multiplication; the `fuel` bounds the
scalar's bit length (520 covers every scalar in use). -/
def scalarMulAux : Nat → Nat → ECPoint → ECPoint → ECPoint
  | 0, _, _, acc => acc
  | fuel + 1, k, base, acc =>
      if k = 0 then acc
      else scalarMulAux fuel (k / 2) (pointDouble base)
        (if k % 2 = 1 then pointAdd acc base else acc)

/-- Scalar multiplication (`EC_POINT_mul`). -/
def scalarMul (k : Nat) (pt : ECPoint) : ECPoint := scalarMulAux 520 k pt .infinity

/-! #### RFC 6979 deterministic nonce (`generateDeterministicK`) -/

/-- The step-h candidate loop of `generateDeterministicK`.  The C++
loop is `while (true)` — it has no iteration cap; the `fuel` parameter
is an artifact of the embedding, and `none` stands for the loop still
running after `fuel` candidates. -/
def genKLoop : Nat → Bytes → Bytes → Option Nat
  | 0, _, _ => none
  | fuel + 1, bigK, v =>
      let v1 := hmacSha256 bigK v
      let k := bytesToNatBE v1
      if k = 0 ∨ secpN ≤ k then
        let k1 := hmacSha256 bigK (v1 ++ [0x00])
        let v2 := hmacSha256 k1 v1
        genKLoop fuel k1 v2
      else some k

/-- Embedding of `generateDeterministicK` (ecdsa.cpp): the RFC 6979
HMAC-SHA-256 chain over the 32-byte private scalar and the digest,
normalised to 32 bytes exactly as the C++ does (truncate long digests,
left-pad short ones). -/
def generateDeterministicK (fuel : Nat) (privKey : Nat) (hash : Bytes) : Option Nat :=
  let privBytes := be 32 privKey
  let hashBytes := if hash.length > 32 then hash.take 32
                   else List.replicate (32 - hash.length) 0 ++ hash
  let v0 := List.replicate 32 0x01
  let k0 := List.replicate 32 0x00
  let k1 := hmacSha256 k0 (v0 ++ [0x00] ++ privBytes ++ hashBytes)
  let v1 := hmacSha256 k1 v0
  let k2 := hmacSha256 k1 (v1 ++ [0x01] ++ privBytes ++ hashBytes)
  let v2 := hmacSha256 k2 v1
  genKLoop fuel k2 v2

/-! #### Recovery id (`calculateRecoveryId`) and signing (`signHash`) -/

/-- The candidate public point reconstructed for one recovery id, the
body of `calculateRecoveryId`'s loop: lift `r` to a curve point with
the parity selected by `recoveryId`, then `Q = r⁻¹·(s·R − e·G)`. -/
def candidateQ (hash : Bytes) (r s : Nat) (recoveryId : Nat) : ECPoint :=
  let x := r
  let ySquared := (x * x % secpP * x + 7) % secpP
  let y0 := sqrtMod ySquared
  let y := if (if y0 % 2 = 1 then 1 else 0) ≠ recoveryId then secpP - y0 else y0
  let bigR := ECPoint.affine x y
  let rInv := invMod r secpN
  let e := bytesToNatBE hash
  let sR := scalarMul s bigR
  let eG := scalarMul e secpG
  scalarMul rInv (pointAdd sR (pointNeg eG))

/-- Whether the candidate point of one recovery id equals the signer's
known public point (`EC_POINT_cmp(group, Q, pub_key, ctx) == 0`). -/
def candidateMatch (pub : ECPoint) (hash : Bytes) (r s : Nat) (recoveryId : Nat) : Bool :=
  candidateQ hash r s recoveryId = pub

/-- Embedding of `calculateRecoveryId` (ecdsa.cpp): try recovery ids 0
and 1 in order; when neither candidate matches, the C++ falls through
to `return 0` — the "default to 0 if recovery fails" branch. -/
def calculateRecoveryId (pub : ECPoint) (hash : Bytes) (r s : Nat) : Nat :=
  if candidateMatch pub hash r s 0 then 0
  else if candidateMatch pub hash r s 1 then 1
  else 0

/-- The Signature struct of types.hpp: `r` and `s` as "0x"-prefixed hex
strings, `v` the externally reported recovery id. -/
structure Signature where
  r : String
  s : String
  v : Nat
deriving DecidableEq, Repr

/-- Minimal big-endian bytes of a value (empty for zero), as
`BN_bn2bin` writes them; `fuel` bounds the byte length. -/
def natBytesBE : Nat → Nat → Bytes
  | 0, _ => []
  | fuel + 1, n => if n = 0 then [] else natBytesBE fuel (n / 256) ++ [n % 256]

/-- Leading zero bytes removed, at least one byte kept. -/
def stripLeadingZeros : Bytes → Bytes
  | [] => []
  | [b] => [b]
  | 0 :: b :: tl => stripLeadingZeros (b :: tl)
  | b :: tl => b :: tl

/-- Embedding of `bnToHex` (ecdsa.cpp): pad the big-endian bytes to at
least `minBytes`, then skip leading zero bytes (keeping at least one)
and print lowercase hex. -/
def bnToHex (bn minBytes : Nat) : String :=
  let raw := natBytesBE 64 bn
  let padded := List.replicate (minBytes - raw.length) 0 ++ raw
  String.mk (((stripLeadingZeros padded).map byteToHexChars).flatten)

/-- The signature computation of `signHash` after the nonce is fixed:
`r = (k·G).x mod n`, `s = k⁻¹(e + r·d) mod n` with low-s normalisation
against `half_order = order >> 1`, recovery id search against the
public point `d·G`, and external `v = recovery_id + 27`. -/
def signWithK (privKey : Nat) (hash : Bytes) (k : Nat) : Signature :=
  let kG := scalarMul k secpG
  let rx := match kG with
    | .affine x _ => x
    | .infinity => 0
  let r := rx % secpN
  let kInv := invMod k secpN
  let e := bytesToNatBE hash
  let s0 := kInv * ((e + r * privKey % secpN) % secpN) % secpN
  let halfOrder := secpN >>> 1
  let s := if halfOrder < s0 then secpN - s0 else s0
  let pub := scalarMul privKey secpG
  let recoveryId := calculateRecoveryId pub hash r s
  ⟨"0x" ++ bnToHex r 32, "0x" ++ bnToHex s 32, recoveryId + 27⟩

/-- Fuel given to the RFC 6979 candidate loop inside `signHash`.  The
C++ loop is unbounded; within this fuel the embedding agrees with the
C++ whenever the loop exits in at most `kFuel` iterations (in practice
it exits on the first). -/
def kFuel : Nat := 1000

/-- Dispatch on the derived nonce: sign with it when the loop produced
one.  The `none` branch is the fuel artifact of the embedded nonce
loop (the C++ loop simply has not returned yet in that case). -/
def signHashFromK (privKey : Nat) (hash : Bytes) : Option Nat → Except CppErr Signature
  | none => .error (.runtimeError "RFC 6979 candidate loop still running at fuel exhaustion")
  | some k => .ok (signWithK privKey hash k)

/-- Embedding of `signHash` (ecdsa.cpp): reject digests that are not 32
bytes with `std::invalid_argument` before anything else, derive the
RFC 6979 nonce, and compute the signature. -/
def signHash (privKey : Nat) (hash : Bytes) : Except CppErr Signature :=
  if hash.length ≠ 32 then .error (.invalidArgument "Hash must be 32 bytes")
  else signHashFromK privKey hash (generateDeterministicK kFuel privKey hash)

/-- Embedding of `signL1Action` (signing.cpp): hash the action, build
the phantom agent and its fixed EIP-712 payload, hash the typed data,
and sign. -/
def signL1Action (privKey : Nat) (action : Jval) (vaultAddress : Option String)
    (nonce : Int) (expiresAfter : Option Int) (isMainnet : Bool) : Except CppErr Signature := do
  let hash ← actionHash action vaultAddress nonce expiresAfter
  let phantomAgent := constructPhantomAgent hash isMainnet
  let payload := l1Payload phantomAgent
  let messageHash ← encodeTypedData payload
  signHash privKey messageHash

/-! ### Concrete inputs used by witnesses and counterexamples -/

/-- A 20-byte vault address, hex "0x22…22". -/
def addr22 : String := "0x2222222222222222222222222222222222222222"

/-- The address of §8's field-encoding vector: "0x" and 20 bytes 0x11. -/
def addr11 : String := "0x1111111111111111111111111111111111111111"

/-- The all-zero 32-byte digest. -/
def zero32 : Bytes := List.replicate 32 0

/-! ### Embedding fidelity checks

Known test vectors of the primitives, evaluated by the kernel: the
Keccak-256 of the empty string (the pre-standardization Keccak value,
distinct from SHA3-256's), the RFC 4231 HMAC-SHA-256 test case 1
(which exercises the full SHA-256 compression, padding, and keying
path used by `generateDeterministicK`), and small multiples of the
secp256k1 generator. -/

set_option maxRecDepth 100000
set_option maxHeartbeats 12000000

example : keccak256 [] =
    [0xc5, 0xd2, 0x46, 0x01, 0x86, 0xf7, 0x23, 0x3c, 0x92, 0x7e, 0x7d, 0xb2, 0xdc, 0xc7, 0x03, 0xc0,
     0xe5, 0x00, 0xb6, 0x53, 0xca, 0x82, 0x27, 0x3b, 0x7b, 0xfa, 0xd8, 0x04, 0x5d, 0x85, 0xa4, 0x70] := by
  decide

example : hmacSha256 (List.replicate 20 0x0b) [0x48, 0x69, 0x20, 0x54, 0x68, 0x65, 0x72, 0x65] =
    [0xb0, 0x34, 0x4c, 0x61, 0xd8, 0xdb, 0x38, 0x53, 0x5c, 0xa8, 0xaf, 0xce, 0xaf, 0x0b, 0xf1, 0x2b,
     0x88, 0x1d, 0xc2, 0x00, 0xc9, 0x83, 0x3d, 0xa7, 0x26, 0xe9, 0x37, 0x6c, 0x2e, 0x32, 0xcf, 0xf7] := by
  decide

example : scalarMul 2 secpG = .affine
    0xc6047f9441ed7d6d3045406e95c07cd85c778e4b8cef3ca7abac09b95c709ee5
    0x1ae168fea63dc339a3c58419466ceaeef7f632653266d0e1236431a950cfe52a := by decide

example : scalarMul 3 secpG = .affine
    0xf9308a019258c31049344f85f89d5229b531c845836f99b08601f113bce036f9
    0x388f7b0f632de8140fe337e62a37f3566500a99934c2231b6cb9fd7584b8e672 := by decide

/-! ### Helper lemmas -/

/-- Fixed-width big-endian encodings have their width. -/
theorem be_length (w n : Nat) : (be w n).length = w := by simp [be]

/-- Keccak-256 always squeezes exactly 32 bytes. -/
theorem keccak256_length (msg : Bytes) : (keccak256 msg).length = 32 := by
  simp [keccak256, leBytes]

/-! ### The claims -/

/-- C1 (code_bug): the claim says the canonical encoder emits map
entries in the caller's insertion order, so that differing key orders
give differing digests.  The code stores actions in `nlohmann::json`,
whose `std::map` re-sorts keys; the two insertion orders below collapse
to the same stored object, the encoder emits key "a" first although it
was supplied second, and the two `actionHash` digests are equal. -/
theorem actionHash_key_order_collapses :
    mkObj [("b", .jint 1), ("a", .jint 2)] = mkObj [("a", .jint 2), ("b", .jint 1)] ∧
    packJson (mkObj [("b", .jint 1), ("a", .jint 2)]) = [0x82, 0xa1, 0x61, 0x02, 0xa1, 0x62, 0x01] ∧
    actionHash (mkObj [("b", .jint 1), ("a", .jint 2)]) none 1700000000000 none
      = actionHash (mkObj [("a", .jint 2), ("b", .jint 1)]) none 1700000000000 none :=
  ⟨rfl, by decide,
    congrArg (fun j => actionHash j none 1700000000000 none)
      (rfl : mkObj [("b", .jint 1), ("a", .jint 2)] = mkObj [("a", .jint 2), ("b", .jint 1)])⟩

/-- C2 (confirmed): `actionHash` returns the Keccak-256 of exactly the
canonical action bytes, the nonce as 8 big-endian bytes, the presence
byte 0x00 (vault absent) or 0x01 with the 20 decoded address bytes
(vault present; an address that does not decode to 20 bytes raises the
encoding error), and — only when the expiry is present — a 0x00 marker
byte with the expiry as 8 big-endian bytes. -/
theorem actionHash_framing (action : Jval) (nonce : Int) (expires : Option Int) :
    (actionHash action none nonce expires
      = .ok (keccak256 (packJson action ++ be 8 (toTc 64 nonce) ++ [0x00] ++ expiryTail expires))) ∧
    (∀ (va : String) (addrBytes : Bytes), hexToBytes va = .ok addrBytes → addrBytes.length = 20 →
      actionHash action (some va) nonce expires
        = .ok (keccak256 (packJson action ++ be 8 (toTc 64 nonce) ++ [0x01] ++ addrBytes
            ++ expiryTail expires))) ∧
    (∀ (va : String) (addrBytes : Bytes), hexToBytes va = .ok addrBytes → addrBytes.length ≠ 20 →
      actionHash action (some va) nonce expires
        = .error (.runtimeError "Invalid vault address length")) := by
  refine ⟨by simp [actionHash], ?_, ?_⟩ <;> intro va addrBytes hva hlen <;>
    simp [actionHash, hva, hlen]

/-- C2 witness: the framing theorem applied at a concrete action,
nonce, and valid 20-byte vault address. -/
theorem actionHash_framing_witness :
    hexToBytes addr22 = .ok (List.replicate 20 0x22) ∧
    (List.replicate 20 (0x22 : Nat)).length = 20 ∧
    actionHash .jnull (some addr22) 1 none
      = .ok (keccak256 (packJson .jnull ++ be 8 (toTc 64 1) ++ [0x01] ++ List.replicate 20 0x22
          ++ expiryTail none)) := by
  have hva : hexToBytes addr22 = .ok (List.replicate 20 0x22) := by decide
  exact ⟨hva, by decide, (actionHash_framing .jnull 1 none).2.1 addr22 _ hva (by decide)⟩

/-- C3 (confirmed): the L1 signing payload has primaryType "Agent" with
fields [(source, string), (connectionId, bytes32)], the fixed Exchange
domain with chainId 1337 and the all-zero verifying contract, and the
phantom-agent message with source "a"/"b" by network and connectionId
the hex of the action hash; the mainnet and testnet payloads differ
only in the message's source value, and `signL1Action` signs exactly
the typed-data hash of this payload. -/
theorem l1Payload_phantom_agent (h : Bytes) (m : Bool) :
    ((l1Payload (constructPhantomAgent h m)).lookup "primaryType" = some (.jstr "Agent")) ∧
    ((l1Payload (constructPhantomAgent h m)).lookup "domain"
      = some (mkObj [("name", .jstr "Exchange"), ("version", .jstr "1"), ("chainId", .jint 1337),
                     ("verifyingContract", .jstr "0x0000000000000000000000000000000000000000")])) ∧
    (((l1Payload (constructPhantomAgent h m)).lookup "types").bind (fun t => t.lookup "Agent")
      = some (jarrOf [mkObj [("name", .jstr "source"), ("type", .jstr "string")],
                      mkObj [("name", .jstr "connectionId"), ("type", .jstr "bytes32")]])) ∧
    (((l1Payload (constructPhantomAgent h m)).lookup "message").bind (fun msg => msg.lookup "source")
      = some (.jstr (if m then "a" else "b"))) ∧
    (((l1Payload (constructPhantomAgent h m)).lookup "message").bind
        (fun msg => msg.lookup "connectionId")
      = some (.jstr (bytesToHex h true))) ∧
    (l1Payload (constructPhantomAgent h true)
      = Jval.update (l1Payload (constructPhantomAgent h false)) "message"
          (fun msg => msg.update "source" (fun _ => .jstr "a"))) ∧
    (∀ (d : Nat) (a : Jval) (va : Option String) (n : Int) (x : Option Int),
      signL1Action d a va n x m
        = actionHash a va n x >>= fun ah =>
            encodeTypedData (l1Payload (constructPhantomAgent ah m)) >>= signHash d) := by
  cases m <;> exact ⟨rfl, rfl, rfl, rfl, rfl, rfl, fun d a va n x => rfl⟩

/-- C4 (confirmed): `encodeField` returns, per declared type: the
Keccak-256 of the raw string content; the decoded `bytes32` verbatim
when exactly 32 bytes and an error otherwise; `uint64`/`uint256`
big-endian right-aligned in 32 bytes; 12 zero bytes and the 20 decoded
address bytes for `address`, erroring on any other decoded length; an
unsupported-type error for every other type name — and every successful
encoding is exactly 32 bytes. -/
theorem encodeField_spec :
    (∀ (s : String), encodeField "string" (.jstr s) = .ok (keccak256 (utf8Bytes s))) ∧
    (∀ (s : String) (bs : Bytes), hexToBytes s = .ok bs → bs.length = 32 →
      encodeField "bytes32" (.jstr s) = .ok bs) ∧
    (∀ (s : String) (bs : Bytes), hexToBytes s = .ok bs → bs.length ≠ 32 →
      encodeField "bytes32" (.jstr s) = .error (.runtimeError "bytes32 field must be 32 bytes")) ∧
    (∀ (i : Int), 0 ≤ i → i < 2 ^ 64 →
      encodeField "uint64" (.jint i) = .ok (List.replicate 24 0 ++ be 8 i.toNat) ∧
      encodeField "uint256" (.jint i) = .ok (List.replicate 24 0 ++ be 8 i.toNat)) ∧
    (∀ (s : String) (bs : Bytes), hexToBytes s = .ok bs → bs.length = 20 →
      encodeField "address" (.jstr s) = .ok (List.replicate 12 0 ++ bs)) ∧
    (∀ (s : String) (bs : Bytes), hexToBytes s = .ok bs → bs.length ≠ 20 →
      encodeField "address" (.jstr s) = .error (.runtimeError "Address must be 20 bytes")) ∧
    (∀ (ty : String) (v : Jval),
      ty ∉ (["string", "bytes32", "uint64", "uint256", "address"] : List String) →
      encodeField ty v = .error (.runtimeError ("Unsupported EIP-712 type: " ++ ty))) ∧
    (∀ (ty : String) (v : Jval) (bs : Bytes), encodeField ty v = .ok bs → bs.length = 32) := by
  refine ⟨fun s => rfl, ?_, ?_, ?_, ?_, ?_, ?_, ?_⟩
  · intro s bs hs hlen
    have e1 : encodeField "bytes32" (.jstr s)
        = (match hexToBytes s with
           | .error e => .error e
           | .ok bytes =>
               if bytes.length ≠ 32 then .error (.runtimeError "bytes32 field must be 32 bytes")
               else .ok bytes) := rfl
    rw [e1, hs]; simp [hlen]
  · intro s bs hs hlen
    have e1 : encodeField "bytes32" (.jstr s)
        = (match hexToBytes s with
           | .error e => .error e
           | .ok bytes =>
               if bytes.length ≠ 32 then .error (.runtimeError "bytes32 field must be 32 bytes")
               else .ok bytes) := rfl
    rw [e1, hs]; simp [hlen]
  · intro i h0 h64
    have ht : toTc 64 i = i.toNat := by
      unfold toTc
      rw [Int.emod_eq_of_lt h0 (by exact_mod_cast h64)]
    constructor
    · have e1 : encodeField "uint64" (.jint i)
          = .ok (List.replicate 24 0 ++ be 8 (toTc 64 i)) := rfl
      rw [e1, ht]
    · have e1 : encodeField "uint256" (.jint i)
          = .ok (List.replicate 24 0 ++ be 8 (toTc 64 i)) := rfl
      rw [e1, ht]
  · intro s bs hs hlen
    have e1 : encodeField "address" (.jstr s)
        = (match hexToBytes s with
           | .error e => .error e
           | .ok bytes =>
               if bytes.length ≠ 20 then .error (.runtimeError "Address must be 20 bytes")
               else .ok (List.replicate 12 0 ++ bytes)) := rfl
    rw [e1, hs]; simp [hlen]
  · intro s bs hs hlen
    have e1 : encodeField "address" (.jstr s)
        = (match hexToBytes s with
           | .error e => .error e
           | .ok bytes =>
               if bytes.length ≠ 20 then .error (.runtimeError "Address must be 20 bytes")
               else .ok (List.replicate 12 0 ++ bytes)) := rfl
    rw [e1, hs]; simp [hlen]
  · intro ty v hne
    simp only [List.mem_cons, List.mem_singleton, not_or] at hne
    obtain ⟨h1, h2, h3, h4, h5, -⟩ := hne
    unfold encodeField
    rw [if_neg h1, if_neg h2, if_neg h3, if_neg h4, if_neg h5]
  · intro ty v bs h
    unfold encodeField at h
    split_ifs at h
    · cases v <;> simp at h
      rw [← h]; exact keccak256_length _
    · cases v <;> simp at h
      rename_i s
      cases hx : hexToBytes s <;> simp [hx] at h
      split_ifs at h with hl
      simp at h
      rw [← h]; exact hl
    · cases hg : getUInt64 v <;> simp [hg] at h
      rw [← h]; simp [be_length]
    · cases hg : getUInt64 v <;> simp [hg] at h
      rw [← h]; simp [be_length]
    · cases v <;> simp at h
      rename_i s
      cases hx : hexToBytes s <;> simp [hx] at h
      split_ifs at h with hl
      simp at h
      rw [← h]; simp [hl]

/-- C4 witness: the address vector of §8 — `encodeField("address",
"0x" + "11"*20)` yields 12 zero bytes and the 20 literal bytes — and an
unsupported type name erroring. -/
theorem encodeField_spec_witness :
    hexToBytes addr11 = .ok (List.replicate 20 0x11) ∧
    (List.replicate 20 (0x11 : Nat)).length = 20 ∧
    encodeField "address" (.jstr addr11) = .ok (List.replicate 12 0 ++ List.replicate 20 0x11) ∧
    ("bytes" ∉ (["string", "bytes32", "uint64", "uint256", "address"] : List String)) ∧
    encodeField "bytes" .jnull = .error (.runtimeError ("Unsupported EIP-712 type: " ++ "bytes")) := by
  have hva : hexToBytes addr11 = .ok (List.replicate 20 0x11) := by decide
  exact ⟨hva, by decide, encodeField_spec.2.2.2.2.1 addr11 _ hva (by decide), by decide,
    encodeField_spec.2.2.2.2.2.2.1 "bytes" .jnull (by decide)⟩

/-- The candidate loop of `generateDeterministicK` only ever returns a
value the range guard admitted: nonzero and below the group order. -/
theorem genKLoop_in_range (fuel : Nat) :
    ∀ (bigK v : Bytes), Option.elim (genKLoop fuel bigK v) True (fun k => 1 ≤ k ∧ k < secpN) := by
  induction fuel with
  | zero => intro bigK v; simp [genKLoop]
  | succ n ih =>
      intro bigK v
      simp only [genKLoop]
      split_ifs with hcond
      · exact ih _ _
      · push_neg at hcond
        simp only [Option.elim]
        omega

/-- C6 (confirmed): signing is a pure function of the private scalar
and the digest — two calls with identical inputs return the identical
Signature triple — and its only source of variation is the nonce the
RFC 6979 HMAC-SHA-256 chain (`generateDeterministicK`) derives from
those same two inputs: the signature is exactly `signWithK` at that
derived nonce, so no external randomness enters anywhere. -/
theorem signHash_deterministic (privKey : Nat) (hash : Bytes) :
    signHash privKey hash = signHash privKey hash ∧
    signHash privKey hash
      = (if hash.length ≠ 32 then .error (.invalidArgument "Hash must be 32 bytes")
         else signHashFromK privKey hash (generateDeterministicK kFuel privKey hash)) :=
  ⟨rfl, rfl⟩

/-- C7 counterexample: a concrete recovery-id computation — public
point G, all-zero digest, signature pair (r, s) = (1, 1) — where
neither candidate parity reconstructs the public point, yet the
function returns recovery id 0 as a normal value instead of failing
with a signature-recovery error. -/
theorem calculateRecoveryId_no_match_returns_zero :
    candidateMatch secpG zero32 1 1 0 = false ∧
    candidateMatch secpG zero32 1 1 1 = false ∧
    calculateRecoveryId secpG zero32 1 1 = 0 := by
  have h0 : candidateMatch secpG zero32 1 1 0 = false := by decide
  have h1 : candidateMatch secpG zero32 1 1 1 = false := by decide
  exact ⟨h0, h1, by simp [calculateRecoveryId, h0, h1]⟩

/-- C7 amended (corrected): when neither candidate parity matches the
known public point, `calculateRecoveryId` returns recovery id 0 — the
code's "default to 0 if recovery fails" branch — and the signing
operation proceeds with v = 27 rather than failing. -/
theorem calculateRecoveryId_defaults_to_zero (pub : ECPoint) (hash : Bytes) (r s : Nat)
    (h0 : candidateMatch pub hash r s 0 = false)
    (h1 : candidateMatch pub hash r s 1 = false) :
    calculateRecoveryId pub hash r s = 0 := by
  simp [calculateRecoveryId, h0, h1]

/-- C7 witness: the default-to-zero theorem applied at a concrete
no-match input (the junk public point (1, 2)). -/
theorem calculateRecoveryId_defaults_to_zero_witness :
    candidateMatch (.affine 1 2) zero32 1 1 0 = false ∧
    candidateMatch (.affine 1 2) zero32 1 1 1 = false ∧
    calculateRecoveryId (.affine 1 2) zero32 1 1 = 0 := by
  have h0 : candidateMatch (.affine 1 2) zero32 1 1 0 = false := by decide
  have h1 : candidateMatch (.affine 1 2) zero32 1 1 1 = false := by decide
  exact ⟨h0, h1, calculateRecoveryId_defaults_to_zero _ _ _ _ h0 h1⟩

/-- C9 counterexample: a concrete input — public point G, all-zero
digest, (r, s) = (1, 2) — on which the recovery-id search loop
exhausts its two iterations without a match and then returns 0 as a
normal value: the cap being exceeded is not a fatal failure. -/
theorem recovery_cap_exceeded_not_fatal :
    candidateMatch secpG zero32 1 2 0 = false ∧
    candidateMatch secpG zero32 1 2 1 = false ∧
    calculateRecoveryId secpG zero32 1 2 = 0 := by
  have h0 : candidateMatch secpG zero32 1 2 0 = false := by decide
  have h1 : candidateMatch secpG zero32 1 2 1 = false := by decide
  exact ⟨h0, h1, by simp [calculateRecoveryId, h0, h1]⟩

/-- C9 amended (corrected): the recovery-id search loop is bounded — it
tries exactly the two parities and always terminates with recovery id 0
or 1, returning 0 (not a fatal failure) on exhaustion — while the
RFC 6979 nonce loop carries no cap in the code (it is `while (true)`;
the embedding's fuel is an artifact): within any fuel bound it either
returns the first in-range candidate, which is always nonzero and below
the group order, or is still running. -/
theorem recovery_and_nonce_loop_behavior :
    (∀ (pub : ECPoint) (hash : Bytes) (r s : Nat),
      calculateRecoveryId pub hash r s = 0 ∨ calculateRecoveryId pub hash r s = 1) ∧
    (∀ (fuel : Nat) (bigK v : Bytes),
      Option.elim (genKLoop fuel bigK v) True (fun k => 1 ≤ k ∧ k < secpN)) ∧
    (∀ (fuel privKey : Nat) (hash : Bytes),
      Option.elim (generateDeterministicK fuel privKey hash) True
        (fun k => 1 ≤ k ∧ k < secpN)) := by
  refine ⟨?_, fun fuel => genKLoop_in_range fuel, ?_⟩
  · intro pub hash r s
    unfold calculateRecoveryId
    split_ifs <;> simp
  · intro fuel privKey hash
    unfold generateDeterministicK
    exact genKLoop_in_range fuel _ _

/-- C10 (confirmed): a digest whose length is not exactly 32 bytes is
rejected by `signHash` with `std::invalid_argument` — the check
precedes the nonce derivation and all curve arithmetic in the code, and
no signature is returned. -/
theorem signHash_rejects_bad_digest_length (privKey : Nat) (hash : Bytes)
    (h : hash.length ≠ 32) :
    signHash privKey hash = .error (.invalidArgument "Hash must be 32 bytes") := by
  simp [signHash, h]

/-- C10 witness: a 31-byte digest is rejected. -/
theorem signHash_rejects_bad_digest_length_witness :
    (List.replicate 31 (0 : Nat)).length ≠ 32 ∧
    signHash 1 (List.replicate 31 0) = .error (.invalidArgument "Hash must be 32 bytes") :=
  ⟨by decide, signHash_rejects_bad_digest_length 1 (List.replicate 31 0) (by decide)⟩

end Hyperliquid
